import Mathlib

/-!
# erc20sdk: a shallow embedding of the ERC20 client facade

The Go packages `errno`, `api/erc20client`, `chain/ethereum`, `chain/binance`
and the top-level factory `erc20sdk.NewClient` are embedded as Lean functions.

* Go pointers are `Option`s (`none` is the nil pointer).
* A Go interface value is either the nil interface or a dynamic type together
  with a value of that type (which may itself be a nil pointer).
* Calls into code outside the repository's sources (the multichain library,
  the `artifacts`, `tools` and `chain/okex` packages) go through an `External`
  record of oracles. Every oracle receives the list of calls made so far, so
  an external call may depend on everything that happened before it, and each
  call is appended to that list: the list is the observable trace.
-/

/-! ## External types -/

/-- The interface `provider.CommonProvider` of the multichain library: the nil
interface or an external value, identified by a handle. -/
abbrev CommonProvider := Option Nat

/-- The interface `mcCli.Client` of the multichain library (nil or a handle). -/
abbrev McClient := Option Nat

/-- The pointer `*ethereum.ContractTxBuilder` of the multichain library. -/
abbrev ContractTxBuilder := Option Nat

/-- The pointer `*ethereum.TxBuilder` of the multichain library. -/
abbrev TxBuilder := Option Nat

/-- The pointer `*ethereum.AddressEncoder` of the multichain library. -/
abbrev AddressEncoder := Option Nat

/-- The pointee of the interface `tx.Tx`. -/
structure TxObj where
  raw : String
  deriving DecidableEq, Repr

/-- The interface `tx.Tx`: nil or a built transaction. -/
abbrev Tx := Option TxObj

/-- A Go `interface{}` value: the nil interface, or a dynamic type with its
value. `bigInt none` is a nil `*big.Int` held in a non-nil interface. -/
inductive GoValue where
  | nil
  | str (s : String)
  | uint8 (n : Nat)
  | bigInt (p : Option Int)
  | bool (b : Bool)
  | address (a : String)
  | other (typeName : String) (repr : String)
  deriving DecidableEq, Repr

/-! ## Package errno -/

namespace errno

/-- The struct `Errno`. -/
structure Errno where
  State : Int
  Msg : String
  deriving DecidableEq, Repr

/-- The method `(e *Errno) Error()`. -/
def Errno.Error (e : Errno) : String :=
  e.Msg

/-- The method `(e Errno) Add(s)`: the receiver is a copy, the copy's message
is extended, and the copy is what the returned pointer points to. -/
def Errno.Add (e : Errno) (s : String) : Errno :=
  { e with Msg := e.Msg ++ (": " ++ s) }

/-- The struct `ResponseErrno`. -/
structure ResponseErrno where
  State : Int
  Msg : String
  HttpCode : Int
  OriginBody : String
  deriving DecidableEq, Repr

/-- The method `(e *ResponseErrno) Error()`. -/
def ResponseErrno.Error (e : ResponseErrno) : String :=
  e.Msg

/-- The method `(e ResponseErrno) SetCode(code, s)`. -/
def ResponseErrno.SetCode (e : ResponseErrno) (code : Int) (s : String) : ResponseErrno :=
  { e with HttpCode := code, OriginBody := s }

/-- The method `(e ResponseErrno) Add(s)`. -/
def ResponseErrno.Add (e : ResponseErrno) (s : String) : ResponseErrno :=
  { e with Msg := e.Msg ++ (": " ++ s) }

/-- The pointee of the sentinel `NotSupportChainType`. -/
def NotSupportChainType : Errno := ⟨10001, "Not support this chain"⟩

/-- The pointee of the sentinel `InvalidTx`. -/
def InvalidTx : Errno := ⟨10002, "Invalid Tx"⟩

/-- The pointee of the sentinel `InvalidTypeAssert`. -/
def InvalidTypeAssert : Errno := ⟨20001, "Invalid type asset"⟩

/-- The heap cells holding `Errno` values; a `*Errno` is an index into it. -/
abbrev ErrnoHeap := List Errno

/-- The heap after the package's `var` block ran: the three sentinels. -/
def sentinelHeap : ErrnoHeap := [NotSupportChainType, InvalidTx, InvalidTypeAssert]

/-- The call `p.Add(s)` through a pointer `p : *Errno`: the pointee is copied
into the value receiver, `Add` runs on the copy, and the copy escapes to a
fresh cell whose address is returned. A nil or dangling `p` gives `none`. -/
def Errno.AddAt (hp : ErrnoHeap) (p : Nat) (s : String) : Option (Nat × ErrnoHeap) :=
  match hp[p]? with
  | none => none
  | some e => some (hp.length, hp ++ [Errno.Add e s])

/-- A run of `Add` calls, each through a pointer; a call through a nil or
dangling pointer is skipped. -/
def Errno.AddMany (hp : ErrnoHeap) : List (Nat × String) → ErrnoHeap
  | [] => hp
  | (p, s) :: rest =>
    match Errno.AddAt hp p s with
    | none => Errno.AddMany hp rest
    | some (_, hp1) => Errno.AddMany hp1 rest

/-- The heap cells holding `ResponseErrno` values. -/
abbrev ResponseErrnoHeap := List ResponseErrno

/-- The call `p.Add(s)` through a pointer `p : *ResponseErrno`. -/
def ResponseErrno.AddAt (hp : ResponseErrnoHeap) (p : Nat) (s : String) :
    Option (Nat × ResponseErrnoHeap) :=
  match hp[p]? with
  | none => none
  | some e => some (hp.length, hp ++ [ResponseErrno.Add e s])

end errno

/-- A non-nil Go `error` interface value: a `*errno.Errno` (by its pointee), a
`*errno.ResponseErrno`, or an error of the external library. -/
inductive GoError where
  | errno (e : errno.Errno)
  | responseErrno (e : errno.ResponseErrno)
  | external (msg : String)
  deriving DecidableEq, Repr

/-! ## Requests handed to the external library -/

/-- The struct `mcCli.CallContractParam`. -/
structure CallContractParam where
  From : String
  ContractAddress : String
  Abi : String
  CalledFunc : String
  Params : List GoValue
  deriving DecidableEq, Repr

/-- The result of `QueryContract`: the decoded values by positional key. -/
structure QueryContractRes where
  DecodeRes : List (String × GoValue)
  deriving DecidableEq, Repr

/-- The Go map index `m[k]`: the entry, or the nil interface when absent. -/
def mapIndex (m : List (String × GoValue)) (k : String) : GoValue :=
  match m.lookup k with
  | some v => v
  | none => GoValue.nil

/-- The struct `txbuilder.BuildInvokeTxReq`. -/
structure BuildInvokeTxReq where
  From : String
  Abi : String
  Method : String
  ContractAddress : String
  Params : List GoValue
  deriving DecidableEq, Repr

/-- The struct `txbuilder.BuildDeployTxReq`. -/
structure BuildDeployTxReq where
  From : String
  Abi : String
  ByteCode : String
  Params : List GoValue
  deriving DecidableEq, Repr

/-- One call that leaves the repository's sources. -/
inductive Call where
  | multichainNewClient (chainType : Nat) (p : CommonProvider)
  | newContractTxBuilder (p : CommonProvider)
  | newTxBuilder (p : CommonProvider)
  | okexNewClient (p : CommonProvider)
  | mcSetProvider (mc : McClient) (p : CommonProvider)
  | mcSetPrivate (mc : McClient) (privateHex : String)
  | queryContract (mc : McClient) (req : CallContractParam)
  | buildInvokeTx (ctb : ContractTxBuilder) (req : BuildInvokeTxReq)
  | buildDeployTx (ctb : ContractTxBuilder) (req : BuildDeployTxReq)
  deriving DecidableEq, Repr

/-- The trace of external calls, oldest first. -/
abbrev Trace := List Call

/-! ## Package api/erc20client -/

namespace erc20client

/-- The struct `CrossChainOption`. -/
structure CrossChainOption where
  GravityContract : String
  DestinationChainType : String
  DestinationChainId : String
  deriving DecidableEq, Repr

/-- The struct `DeployERC20Param`. -/
structure DeployERC20Param where
  Abi : String
  ByteCode : String
  Params : List GoValue
  deriving DecidableEq, Repr

end erc20client

/-! ## Package chain/ethereum -/

namespace ethereum

/-- The struct `Client`. -/
structure Client where
  mc : McClient
  defaultAccount : String
  contractAddress : String
  abi : String
  provider : CommonProvider
  ctb : ContractTxBuilder
  tb : TxBuilder
  ae : AddressEncoder
  deriving DecidableEq, Repr

/-- The zero value `Client{}`. -/
def Client.zero : Client :=
  { mc := none, defaultAccount := "", contractAddress := "", abi := "",
    provider := none, ctb := none, tb := none, ae := none }

end ethereum

/-- The constants of the `artifacts` package and of the multichain library
that the sources use but do not define. -/
structure Consts where
  TypeEthereum : Nat
  TypeBinance : Nat
  TypeOKEx : Nat
  DefaultABI : String
  DefaultByteCode : String
  FuncName : String
  FuncSymbol : String
  FuncDecimals : String
  FuncTotalSupply : String
  FuncBalanceOf : String
  FuncAllowance : String
  FuncTransfer : String
  FuncTransferFrom : String
  FuncApprove : String
  FuncMint : String
  FuncBurn : String

/-- The functions the sources call but do not define. Each takes the trace of
the calls made before it. -/
structure External where
  multichainNewClient : Trace → Nat → CommonProvider → McClient × Option GoError
  newContractTxBuilder : Trace → CommonProvider → ContractTxBuilder × Option GoError
  newTxBuilder : Trace → CommonProvider → TxBuilder × Option GoError
  okexNewClient : Trace → CommonProvider → Option ethereum.Client × Option GoError
  mcSetProvider : Trace → McClient → CommonProvider → Option GoError
  mcSetPrivate : Trace → McClient → String → Option GoError
  queryContract : Trace → McClient → CallContractParam → QueryContractRes × Option GoError
  buildInvokeTx : Trace → ContractTxBuilder → BuildInvokeTxReq → Tx × Option GoError
  buildDeployTx : Trace → ContractTxBuilder → BuildDeployTxReq → Tx × Option GoError
  hexToAddress : AddressEncoder → String → GoValue
  fastMarshal : QueryContractRes → String

namespace ethereum

/-- The method `(c *Client) SetProvider(provider)`. -/
def Client.SetProvider (x : External) (c : Client) (provider : CommonProvider) (tr : Trace) :
    Option GoError × Trace :=
  (x.mcSetProvider tr c.mc provider, tr ++ [Call.mcSetProvider c.mc provider])

/-- The method `(c *Client) SetPrivate(privateHex)`. -/
def Client.SetPrivate (x : External) (c : Client) (privateHex : String) (tr : Trace) :
    Option GoError × Trace :=
  (x.mcSetPrivate tr c.mc privateHex, tr ++ [Call.mcSetPrivate c.mc privateHex])

/-- The function `NewClient(provider)`. -/
def NewClient (x : External) (k : Consts) (provider : CommonProvider) (tr : Trace) :
    (Option Client × Option GoError) × Trace :=
  let cli := Client.zero
  let tr1 := tr ++ [Call.multichainNewClient k.TypeEthereum provider]
  match x.multichainNewClient tr k.TypeEthereum provider with
  | (_, some err) => ((none, some err), tr1)
  | (mCli, none) =>
    let cli := { cli with mc := mCli, abi := k.DefaultABI, provider := provider }
    let tr2 := tr1 ++ [Call.newContractTxBuilder provider]
    match x.newContractTxBuilder tr1 provider with
    | (_, some err) => ((none, some err), tr2)
    | (ctb, none) =>
      let cli := { cli with ctb := ctb }
      let tr3 := tr2 ++ [Call.newTxBuilder provider]
      match x.newTxBuilder tr2 provider with
      | (_, some err) => ((none, some err), tr3)
      | (tb, none) =>
        let cli := { cli with tb := tb }
        match Client.SetProvider x cli provider tr3 with
        | (some err, tr4) => ((none, some err), tr4)
        | (none, tr4) => ((some cli, none), tr4)

/-- The method `(c *Client) GetAccount()`. -/
def Client.GetAccount (c : Client) : String :=
  c.defaultAccount

/-- The method `(c *Client) SetAccount(account)`. -/
def Client.SetAccount (c : Client) (account : String) : Client :=
  { c with defaultAccount := account }

/-- The method `(c *Client) SetContractAddress(addr)`. -/
def Client.SetContractAddress (c : Client) (addr : String) : Client :=
  { c with contractAddress := addr }

/-- The error every read method returns when the type assertion fails. -/
def typeAssertError (x : External) (queryRes : QueryContractRes) : GoError :=
  GoError.errno (errno.Errno.Add errno.InvalidTypeAssert
    ("raw queryRes is : " ++ x.fastMarshal queryRes))

/-- The method `(c *Client) Name()`. -/
def Client.Name (x : External) (k : Consts) (c : Client) (tr : Trace) :
    (String × Option GoError) × Trace :=
  let req : CallContractParam :=
    { From := "", ContractAddress := c.contractAddress, Abi := c.abi,
      CalledFunc := k.FuncName, Params := [] }
  let tr1 := tr ++ [Call.queryContract c.mc req]
  match x.queryContract tr c.mc req with
  | (_, some err) => (("", some err), tr1)
  | (queryRes, none) =>
    match mapIndex queryRes.DecodeRes "0" with
    | GoValue.str res => ((res, none), tr1)
    | _ => (("", some (typeAssertError x queryRes)), tr1)

/-- The method `(c *Client) Symbol()`. -/
def Client.Symbol (x : External) (k : Consts) (c : Client) (tr : Trace) :
    (String × Option GoError) × Trace :=
  let req : CallContractParam :=
    { From := "", ContractAddress := c.contractAddress, Abi := k.DefaultABI,
      CalledFunc := k.FuncSymbol, Params := [] }
  let tr1 := tr ++ [Call.queryContract c.mc req]
  match x.queryContract tr c.mc req with
  | (_, some err) => (("", some err), tr1)
  | (queryRes, none) =>
    match mapIndex queryRes.DecodeRes "0" with
    | GoValue.str res => ((res, none), tr1)
    | _ => (("", some (typeAssertError x queryRes)), tr1)

/-- The method `(c *Client) Decimals()`. -/
def Client.Decimals (x : External) (k : Consts) (c : Client) (tr : Trace) :
    (Nat × Option GoError) × Trace :=
  let req : CallContractParam :=
    { From := "", ContractAddress := c.contractAddress, Abi := k.DefaultABI,
      CalledFunc := k.FuncDecimals, Params := [] }
  let tr1 := tr ++ [Call.queryContract c.mc req]
  match x.queryContract tr c.mc req with
  | (_, some err) => ((0, some err), tr1)
  | (queryRes, none) =>
    match mapIndex queryRes.DecodeRes "0" with
    | GoValue.uint8 res => ((res, none), tr1)
    | _ => ((0, some (typeAssertError x queryRes)), tr1)

/-- The method `(c *Client) TotalSupply()`. -/
def Client.TotalSupply (x : External) (k : Consts) (c : Client) (tr : Trace) :
    (Option Int × Option GoError) × Trace :=
  let req : CallContractParam :=
    { From := "", ContractAddress := c.contractAddress, Abi := k.DefaultABI,
      CalledFunc := k.FuncTotalSupply, Params := [] }
  let tr1 := tr ++ [Call.queryContract c.mc req]
  match x.queryContract tr c.mc req with
  | (_, some err) => ((none, some err), tr1)
  | (queryRes, none) =>
    match mapIndex queryRes.DecodeRes "0" with
    | GoValue.bigInt res => ((res, none), tr1)
    | _ => ((none, some (typeAssertError x queryRes)), tr1)

/-- The method `(c *Client) BalanceOf(addr)`. -/
def Client.BalanceOf (x : External) (k : Consts) (c : Client) (addr : String) (tr : Trace) :
    (Option Int × Option GoError) × Trace :=
  let req : CallContractParam :=
    { From := "", ContractAddress := c.contractAddress, Abi := k.DefaultABI,
      CalledFunc := k.FuncBalanceOf, Params := [x.hexToAddress c.ae addr] }
  let tr1 := tr ++ [Call.queryContract c.mc req]
  match x.queryContract tr c.mc req with
  | (_, some err) => ((none, some err), tr1)
  | (queryRes, none) =>
    match mapIndex queryRes.DecodeRes "0" with
    | GoValue.bigInt res => ((res, none), tr1)
    | _ => ((none, some (typeAssertError x queryRes)), tr1)

/-- The method `(c *Client) Allowance(owner, spender)`. -/
def Client.Allowance (x : External) (k : Consts) (c : Client) (owner spender : String)
    (tr : Trace) : (Option Int × Option GoError) × Trace :=
  let req : CallContractParam :=
    { From := "", ContractAddress := c.contractAddress, Abi := k.DefaultABI,
      CalledFunc := k.FuncAllowance,
      Params := [x.hexToAddress c.ae owner, x.hexToAddress c.ae spender] }
  let tr1 := tr ++ [Call.queryContract c.mc req]
  match x.queryContract tr c.mc req with
  | (_, some err) => ((none, some err), tr1)
  | (queryRes, none) =>
    match mapIndex queryRes.DecodeRes "0" with
    | GoValue.bigInt res => ((res, none), tr1)
    | _ => ((none, some (typeAssertError x queryRes)), tr1)

/-- The method `(c *Client) DeployContract(param)`. -/
def Client.DeployContract (x : External) (k : Consts) (c : Client)
    (param : erc20client.DeployERC20Param) (tr : Trace) : (Tx × Option GoError) × Trace :=
  let abi := param.Abi
  let byteCode := param.ByteCode
  let (abi, byteCode) :=
    if abi = "" ∨ byteCode = "" then (k.DefaultABI, k.DefaultByteCode) else (abi, byteCode)
  let req : BuildDeployTxReq :=
    { From := c.GetAccount, Abi := abi, ByteCode := byteCode, Params := param.Params }
  (x.buildDeployTx tr c.ctb req, tr ++ [Call.buildDeployTx c.ctb req])

/-- The method `(c *Client) Transfer(to, value, option)`. -/
def Client.Transfer (x : External) (k : Consts) (c : Client) (toAddr : String) (value : Option Int)
    (_option : Option erc20client.CrossChainOption) (tr : Trace) :
    (Tx × Option GoError) × Trace :=
  let req : BuildInvokeTxReq :=
    { From := c.GetAccount, Abi := c.abi, Method := k.FuncTransfer,
      ContractAddress := c.contractAddress,
      Params := [x.hexToAddress c.ae toAddr, GoValue.bigInt value] }
  (x.buildInvokeTx tr c.ctb req, tr ++ [Call.buildInvokeTx c.ctb req])

/-- The method `(c *Client) TransferFrom(from, to, value)`. -/
def Client.TransferFrom (x : External) (k : Consts) (c : Client) (sender toAddr : String)
    (value : Option Int) (tr : Trace) : (Tx × Option GoError) × Trace :=
  let req : BuildInvokeTxReq :=
    { From := c.GetAccount, Abi := c.abi, Method := k.FuncTransferFrom,
      ContractAddress := c.contractAddress,
      Params := [x.hexToAddress c.ae sender, x.hexToAddress c.ae toAddr, GoValue.bigInt value] }
  (x.buildInvokeTx tr c.ctb req, tr ++ [Call.buildInvokeTx c.ctb req])

/-- The method `(c *Client) Approve(spender, value)`. -/
def Client.Approve (x : External) (k : Consts) (c : Client) (spender : String)
    (value : Option Int) (tr : Trace) : (Tx × Option GoError) × Trace :=
  let req : BuildInvokeTxReq :=
    { From := c.GetAccount, Abi := c.abi, Method := k.FuncApprove,
      ContractAddress := c.contractAddress,
      Params := [x.hexToAddress c.ae spender, GoValue.bigInt value] }
  (x.buildInvokeTx tr c.ctb req, tr ++ [Call.buildInvokeTx c.ctb req])

/-- The method `(c *Client) Mint(address, amount)`. -/
def Client.Mint (x : External) (k : Consts) (c : Client) (address : String)
    (amount : Option Int) (tr : Trace) : (Tx × Option GoError) × Trace :=
  let req : BuildInvokeTxReq :=
    { From := c.GetAccount, Abi := c.abi, Method := k.FuncMint,
      ContractAddress := c.contractAddress,
      Params := [x.hexToAddress c.ae address, GoValue.bigInt amount] }
  (x.buildInvokeTx tr c.ctb req, tr ++ [Call.buildInvokeTx c.ctb req])

/-- The method `(c *Client) Burn(address, amount)`. -/
def Client.Burn (x : External) (k : Consts) (c : Client) (address : String)
    (amount : Option Int) (tr : Trace) : (Tx × Option GoError) × Trace :=
  let req : BuildInvokeTxReq :=
    { From := c.GetAccount, Abi := c.abi, Method := k.FuncBurn,
      ContractAddress := c.contractAddress,
      Params := [x.hexToAddress c.ae address, GoValue.bigInt amount] }
  (x.buildInvokeTx tr c.ctb req, tr ++ [Call.buildInvokeTx c.ctb req])

end ethereum

/-! ## Package chain/binance -/

namespace binance

/-- The alias `type Client = ethereum.Client`. -/
abbrev Client := ethereum.Client

/-- The function `NewClient(provider)`. -/
def NewClient (x : External) (k : Consts) (provider : CommonProvider) (tr : Trace) :
    (Option Client × Option GoError) × Trace :=
  ethereum.NewClient x k provider tr

end binance

/-! ## Package chain/okex (its sources are not available) -/

namespace okex

/-- The function `NewClient(provider)` of the package `chain/okex`, whose code
is an oracle of `External`. -/
def NewClient (x : External) (provider : CommonProvider) (tr : Trace) :
    (Option ethereum.Client × Option GoError) × Trace :=
  (x.okexNewClient tr provider, tr ++ [Call.okexNewClient provider])

/-- Modelled from the spec: the package `chain/okex`, whose sources are
missing, is described as a chain alias that re-exports the Ethereum
implementation, as `chain/binance` does; its `NewClient(provider)` is then
`ethereum.NewClient(provider)`. -/
def NewClientSpec (x : External) (k : Consts) (provider : CommonProvider) (tr : Trace) :
    (Option ethereum.Client × Option GoError) × Trace :=
  ethereum.NewClient x k provider tr

end okex

/-! ## Package erc20sdk -/

/-- A value of the interface `erc20client.Client`: the nil interface, or a
pointer to a client struct. The pointer inside a non-nil interface value may
itself be nil. -/
inductive ClientIface where
  | nil
  | ofPtr (p : Option ethereum.Client)
  deriving DecidableEq, Repr

namespace erc20sdk

/-- The constant `TypeETH`. -/
def TypeETH (k : Consts) : Nat := k.TypeEthereum

/-- The constant `TypeBSC`. -/
def TypeBSC (k : Consts) : Nat := k.TypeBinance

/-- The constant `TypeOKEX`. -/
def TypeOKEX (k : Consts) : Nat := k.TypeOKEx

/-- The conversion Go applies when a `*Client` is assigned to a variable of
the interface type: the result is never the nil interface. -/
def toIface (r : (Option ethereum.Client × Option GoError) × Trace) :
    (ClientIface × Option GoError) × Trace :=
  ((ClientIface.ofPtr r.1.1, r.1.2), r.2)

/-- The function `NewClient(chainType, provider)`. -/
def NewClient (x : External) (k : Consts) (chainType : Nat) (provider : CommonProvider)
    (tr : Trace) : (ClientIface × Option GoError) × Trace :=
  let sel : (ClientIface × Option GoError) × Trace :=
    if chainType = TypeETH k then toIface (ethereum.NewClient x k provider tr)
    else if chainType = TypeBSC k then toIface (binance.NewClient x k provider tr)
    else if chainType = TypeOKEX k then toIface (okex.NewClient x provider tr)
    else ((ClientIface.nil, none), tr)
  match sel with
  | ((_, some err), tr1) => ((ClientIface.nil, some err), tr1)
  | ((ClientIface.nil, none), tr1) =>
    ((ClientIface.nil, some (GoError.errno errno.NotSupportChainType)), tr1)
  | ((cli, none), tr1) => ((cli, none), tr1)

end erc20sdk

/-! ## Sequences of method calls on one client -/

/-- One method call on a `*ethereum.Client`, with its arguments. -/
inductive Op where
  | SetProvider (provider : CommonProvider)
  | SetPrivate (privateHex : String)
  | GetAccount
  | SetAccount (account : String)
  | SetContractAddress (addr : String)
  | Name
  | Symbol
  | Decimals
  | TotalSupply
  | BalanceOf (addr : String)
  | Allowance (owner spender : String)
  | DeployContract (param : erc20client.DeployERC20Param)
  | Transfer (toAddr : String) (value : Option Int) (option : Option erc20client.CrossChainOption)
  | TransferFrom (sender toAddr : String) (value : Option Int)
  | Approve (spender : String) (value : Option Int)
  | Mint (address : String) (amount : Option Int)
  | Burn (address : String) (amount : Option Int)
  deriving DecidableEq, Repr

/-- The effect of one method call on the client struct and on the trace; what
the method returns to its caller is dropped. -/
def Op.apply (x : External) (k : Consts) (op : Op) (s : ethereum.Client × Trace) :
    ethereum.Client × Trace :=
  match op with
  | Op.SetProvider provider => (s.1, (ethereum.Client.SetProvider x s.1 provider s.2).2)
  | Op.SetPrivate privateHex => (s.1, (ethereum.Client.SetPrivate x s.1 privateHex s.2).2)
  | Op.GetAccount => s
  | Op.SetAccount account => (ethereum.Client.SetAccount s.1 account, s.2)
  | Op.SetContractAddress addr => (ethereum.Client.SetContractAddress s.1 addr, s.2)
  | Op.Name => (s.1, (ethereum.Client.Name x k s.1 s.2).2)
  | Op.Symbol => (s.1, (ethereum.Client.Symbol x k s.1 s.2).2)
  | Op.Decimals => (s.1, (ethereum.Client.Decimals x k s.1 s.2).2)
  | Op.TotalSupply => (s.1, (ethereum.Client.TotalSupply x k s.1 s.2).2)
  | Op.BalanceOf addr => (s.1, (ethereum.Client.BalanceOf x k s.1 addr s.2).2)
  | Op.Allowance owner spender => (s.1, (ethereum.Client.Allowance x k s.1 owner spender s.2).2)
  | Op.DeployContract param => (s.1, (ethereum.Client.DeployContract x k s.1 param s.2).2)
  | Op.Transfer toAddr value option =>
    (s.1, (ethereum.Client.Transfer x k s.1 toAddr value option s.2).2)
  | Op.TransferFrom sender toAddr value =>
    (s.1, (ethereum.Client.TransferFrom x k s.1 sender toAddr value s.2).2)
  | Op.Approve spender value => (s.1, (ethereum.Client.Approve x k s.1 spender value s.2).2)
  | Op.Mint address amount => (s.1, (ethereum.Client.Mint x k s.1 address amount s.2).2)
  | Op.Burn address amount => (s.1, (ethereum.Client.Burn x k s.1 address amount s.2).2)

/-- A sequence of method calls, run in order. -/
def runOps (x : External) (k : Consts) (ops : List Op) (s : ethereum.Client × Trace) :
    ethereum.Client × Trace :=
  ops.foldl (fun acc op => Op.apply x k op acc) s

/-- Whether the call is `SetAccount`. -/
def Op.isSetAccount : Op → Bool
  | Op.SetAccount _ => true
  | _ => false

/-- Whether the call is `SetContractAddress`. -/
def Op.isSetContractAddress : Op → Bool
  | Op.SetContractAddress _ => true
  | _ => false

/-- Whether the call is a write method or `DeployContract`. -/
def Op.isBuild : Op → Bool
  | Op.DeployContract _ => true
  | Op.Transfer _ _ _ => true
  | Op.TransferFrom _ _ _ => true
  | Op.Approve _ _ => true
  | Op.Mint _ _ => true
  | Op.Burn _ _ => true
  | _ => false

/-- The `From` field of the request of a build call; `none` for other calls. -/
def Call.sender : Call → Option String
  | Call.buildInvokeTx _ req => some req.From
  | Call.buildDeployTx _ req => some req.From
  | _ => none

/-- The `Abi` field of the request of a query or an invoke call. -/
def Call.callAbi : Call → Option String
  | Call.queryContract _ req => some req.Abi
  | Call.buildInvokeTx _ req => some req.Abi
  | _ => none

/-! ## Concrete constants and external behaviours -/

/-- A choice of the constants, with three distinct chain types. -/
def sampleConsts : Consts :=
  { TypeEthereum := 1, TypeBinance := 2, TypeOKEx := 3,
    DefaultABI := "default-abi", DefaultByteCode := "default-bytecode",
    FuncName := "name", FuncSymbol := "symbol", FuncDecimals := "decimals",
    FuncTotalSupply := "totalSupply", FuncBalanceOf := "balanceOf",
    FuncAllowance := "allowance", FuncTransfer := "transfer",
    FuncTransferFrom := "transferFrom", FuncApprove := "approve",
    FuncMint := "mint", FuncBurn := "burn" }

/-- An external library in which every call succeeds; a query answers with
the given decoded map, a builder with a transaction named after the method. -/
def sampleExternal (decoded : List (String × GoValue)) : External :=
  { multichainNewClient := fun _ _ _ => (some 10, none)
    newContractTxBuilder := fun _ _ => (some 20, none)
    newTxBuilder := fun _ _ => (some 30, none)
    okexNewClient := fun _ provider =>
      (some { ethereum.Client.zero with abi := "default-abi", provider := provider }, none)
    mcSetProvider := fun _ _ _ => none
    mcSetPrivate := fun _ _ _ => none
    queryContract := fun _ _ _ => (⟨decoded⟩, none)
    buildInvokeTx := fun _ _ req => (some ⟨req.Method⟩, none)
    buildDeployTx := fun _ _ req => (some ⟨req.ByteCode⟩, none)
    hexToAddress := fun _ s => GoValue.address s
    fastMarshal := fun r => "entries:" ++ toString r.DecodeRes.length }

/-- The client that `ethereum.NewClient` builds for provider 7 from
`sampleExternal` and `sampleConsts`. -/
def sampleClient : ethereum.Client :=
  { mc := some 10, defaultAccount := "", contractAddress := "", abi := "default-abi",
    provider := some 7, ctb := some 20, tb := some 30, ae := none }

/-- An external library whose `multichain.NewClient` fails. -/
def failingExternal : External :=
  { sampleExternal [] with
    multichainNewClient := fun _ _ _ => (none, some (GoError.external "bad provider")) }

/-- An external library whose `okex.NewClient` returns what the Ethereum
constructor returns. -/
def aliasOkexExternal : External :=
  { sampleExternal [] with
    okexNewClient := fun tr provider =>
      (ethereum.NewClient (sampleExternal []) sampleConsts provider tr).1 }

/-- An external library whose queries fail, while still handing back a decoded
map that holds a value of every expected type. -/
def failingQueryExternal (decoded : List (String × GoValue)) : External :=
  { sampleExternal decoded with
    queryContract := fun _ _ _ => (⟨decoded⟩, some (GoError.external "rpc down")) }

/-! ## The factory `erc20sdk.NewClient` -/

/-- C1: for a chain type that is none of `TypeETH`, `TypeBSC`, `TypeOKEX`, and
for every provider and every behaviour of the external code, `NewClient`
returns the nil client and the sentinel `NotSupportChainType`, whose `State`
is 10001, and the trace is unchanged: no constructor was called. -/
theorem NewClient_unsupported_chainType (x : External) (k : Consts) (chainType : Nat)
    (provider : CommonProvider) (tr : Trace)
    (hETH : chainType ≠ erc20sdk.TypeETH k) (hBSC : chainType ≠ erc20sdk.TypeBSC k)
    (hOKEX : chainType ≠ erc20sdk.TypeOKEX k) :
    erc20sdk.NewClient x k chainType provider tr
        = ((ClientIface.nil, some (GoError.errno errno.NotSupportChainType)), tr)
      ∧ errno.NotSupportChainType.State = 10001 := by
  refine ⟨?_, rfl⟩
  simp only [erc20sdk.NewClient, if_neg hETH, if_neg hBSC, if_neg hOKEX]

/-- C1 at chain type 99 with the chain types 1, 2, 3. -/
theorem NewClient_unsupported_chainType_witness :
    erc20sdk.NewClient (sampleExternal []) sampleConsts 99 (some 7) []
        = ((ClientIface.nil, some (GoError.errno errno.NotSupportChainType)), [])
      ∧ errno.NotSupportChainType.State = 10001 :=
  NewClient_unsupported_chainType (sampleExternal []) sampleConsts 99 (some 7) []
    (by decide) (by decide) (by decide)

/-- The function `ethereum.NewClient` returns a nil pointer only together with
an error. -/
theorem ethereum_NewClient_nil_error (x : External) (k : Consts) (provider : CommonProvider)
    (tr : Trace) (h : (ethereum.NewClient x k provider tr).1.2 = none) :
    ∃ c, (ethereum.NewClient x k provider tr).1.1 = some c := by
  unfold ethereum.NewClient at h ⊢
  simp only at h ⊢
  split at h
  · simp at h
  · split at h
    · simp at h
    · split at h
      · simp at h
      · split at h
        · simp at h
        · exact ⟨_, rfl⟩

/-- The factory on a result of the selected constructor. -/
theorem NewClient_of_toIface (r : (Option ethereum.Client × Option GoError) × Trace) :
    (match erc20sdk.toIface r with
      | ((_, some err), tr1) => ((ClientIface.nil, some err), tr1)
      | ((ClientIface.nil, none), tr1) =>
        ((ClientIface.nil, some (GoError.errno errno.NotSupportChainType)), tr1)
      | ((cli, none), tr1) => ((cli, none), tr1))
      = match r.1.2 with
        | some err => ((ClientIface.nil, some err), r.2)
        | none => ((ClientIface.ofPtr r.1.1, none), r.2) := by
  obtain ⟨⟨p, e⟩, t⟩ := r
  cases e <;> simp [erc20sdk.toIface]

/-- C2 (amended): for each supported chain type the factory runs the selected
constructor (`ethereum.NewClient` for `TypeETH`, `binance.NewClient`, which is
`ethereum.NewClient`, for `TypeBSC`, `okex.NewClient` for `TypeOKEX`); when
that constructor returns a client and no error, the factory returns exactly
that client, as a non-nil interface value, and no error; when it returns an
error, the factory returns the nil client and that error. -/
theorem NewClient_supported_chainType (x : External) (k : Consts) (chainType : Nat)
    (provider : CommonProvider) (tr : Trace)
    (hEB : erc20sdk.TypeETH k ≠ erc20sdk.TypeBSC k)
    (hEO : erc20sdk.TypeETH k ≠ erc20sdk.TypeOKEX k)
    (hBO : erc20sdk.TypeBSC k ≠ erc20sdk.TypeOKEX k)
    (r : (Option ethereum.Client × Option GoError) × Trace)
    (hsel : (chainType = erc20sdk.TypeETH k ∧ r = ethereum.NewClient x k provider tr)
      ∨ (chainType = erc20sdk.TypeBSC k ∧ r = binance.NewClient x k provider tr)
      ∨ (chainType = erc20sdk.TypeOKEX k ∧ r = okex.NewClient x provider tr)) :
    (∀ c, r.1 = (some c, none) →
        erc20sdk.NewClient x k chainType provider tr
          = ((ClientIface.ofPtr (some c), none), r.2))
      ∧ (∀ p e, r.1 = (p, some e) →
        erc20sdk.NewClient x k chainType provider tr = ((ClientIface.nil, some e), r.2))
      ∧ binance.NewClient x k provider tr = ethereum.NewClient x k provider tr := by
  have key : erc20sdk.NewClient x k chainType provider tr
      = match r.1.2 with
        | some err => ((ClientIface.nil, some err), r.2)
        | none => ((ClientIface.ofPtr r.1.1, none), r.2) := by
    rw [← NewClient_of_toIface]
    rcases hsel with ⟨h1, h2⟩ | ⟨h1, h2⟩ | ⟨h1, h2⟩
    · subst h1 h2
      simp only [erc20sdk.NewClient, if_true]
    · subst h1 h2
      simp only [erc20sdk.NewClient, if_neg (Ne.symm hEB), if_true]
    · subst h1 h2
      simp only [erc20sdk.NewClient, if_neg (Ne.symm hEO), if_neg (Ne.symm hBO), if_true]
  refine ⟨?_, ?_, rfl⟩
  · intro c hc
    rw [key]
    simp [hc]
  · intro p e he
    rw [key]
    simp [he]

/-- C2 with chain type 1 (`TypeETH`) and an external library that succeeds: the
factory returns the client `ethereum.NewClient` built. -/
theorem NewClient_supported_chainType_witness :
    (ethereum.NewClient (sampleExternal []) sampleConsts (some 7) []).1
        = (some sampleClient, none)
      ∧ erc20sdk.NewClient (sampleExternal []) sampleConsts 1 (some 7) []
        = ((ClientIface.ofPtr (some sampleClient), none),
           (ethereum.NewClient (sampleExternal []) sampleConsts (some 7) []).2) :=
  ⟨rfl, (NewClient_supported_chainType (sampleExternal []) sampleConsts 1 (some 7) []
    (by decide) (by decide) (by decide)
    (ethereum.NewClient (sampleExternal []) sampleConsts (some 7) [])
    (Or.inl ⟨rfl, rfl⟩)).1 _ rfl⟩

/-- C2 as stated fails: with chain type `TypeETH` and a provider that the
external `multichain.NewClient` rejects, the factory returns the nil client
and the external error. -/
theorem NewClient_supported_chainType_counterexample :
    erc20sdk.NewClient failingExternal sampleConsts (erc20sdk.TypeETH sampleConsts) (some 7) []
        = ((ClientIface.nil, some (GoError.external "bad provider")),
           [Call.multichainNewClient 1 (some 7)])
      ∧ ¬ ∃ c : ethereum.Client,
          (erc20sdk.NewClient failingExternal sampleConsts (erc20sdk.TypeETH sampleConsts)
            (some 7) []).1 = (ClientIface.ofPtr (some c), none) := by
  have h : erc20sdk.NewClient failingExternal sampleConsts (erc20sdk.TypeETH sampleConsts)
      (some 7) [] = ((ClientIface.nil, some (GoError.external "bad provider")),
        [Call.multichainNewClient 1 (some 7)]) := rfl
  refine ⟨h, ?_⟩
  rintro ⟨c, hc⟩
  rw [h] at hc
  simp at hc

/-- C3: with `okex.NewClient` returning what the Ethereum constructor returns,
as the specification describes that package, no constructor the switch can
select returns a nil pointer together with a nil error, so the premise of the
claim is never met; and for every chain type, whenever the factory returns a
nil error, the client it returns is a non-nil interface value whose pointer is
not nil. -/
theorem NewClient_nil_pointer (x : External) (k : Consts) (chainType : Nat)
    (provider : CommonProvider) (tr : Trace)
    (hokex : (okex.NewClient x provider tr).1 = (okex.NewClientSpec x k provider tr).1) :
    (ethereum.NewClient x k provider tr).1 ≠ (none, none)
      ∧ (binance.NewClient x k provider tr).1 ≠ (none, none)
      ∧ (okex.NewClient x provider tr).1 ≠ (none, none)
      ∧ ∀ cli, (erc20sdk.NewClient x k chainType provider tr).1 = (cli, none) →
          ∃ c, cli = ClientIface.ofPtr (some c) := by
  have hEth : (ethereum.NewClient x k provider tr).1.2 = none →
      ∃ c, (ethereum.NewClient x k provider tr).1.1 = some c :=
    ethereum_NewClient_nil_error x k provider tr
  have hOk : (okex.NewClient x provider tr).1.2 = none →
      ∃ c, (okex.NewClient x provider tr).1.1 = some c := by
    rw [hokex]
    exact hEth
  have hne : ∀ r : (Option ethereum.Client × Option GoError) × Trace,
      (r.1.2 = none → ∃ c, r.1.1 = some c) → r.1 ≠ (none, none) := by
    intro r hr h
    obtain ⟨c, hc⟩ := hr (by rw [h])
    rw [h] at hc
    simp at hc
  have hgen : ∀ (r : (Option ethereum.Client × Option GoError) × Trace) (cli : ClientIface),
      (r.1.2 = none → ∃ c, r.1.1 = some c) →
      (match erc20sdk.toIface r with
        | ((_, some err), tr1) => ((ClientIface.nil, some err), tr1)
        | ((ClientIface.nil, none), tr1) =>
          ((ClientIface.nil, some (GoError.errno errno.NotSupportChainType)), tr1)
        | ((cli, none), tr1) => ((cli, none), tr1)).1 = (cli, none) →
      ∃ c, cli = ClientIface.ofPtr (some c) := by
    intro r cli hr h
    rw [NewClient_of_toIface] at h
    cases herr : r.1.2 with
    | some e => rw [herr] at h; simp at h
    | none =>
      rw [herr] at h
      obtain ⟨c, hc⟩ := hr herr
      simp only [hc, Prod.mk.injEq, and_true] at h
      exact ⟨c, h.symm⟩
  refine ⟨hne _ hEth, hne _ hEth, hne _ hOk, ?_⟩
  intro cli hcli
  unfold erc20sdk.NewClient at hcli
  simp only at hcli
  split_ifs at hcli
  · exact hgen _ cli hEth hcli
  · exact hgen _ cli hEth hcli
  · exact hgen _ cli hOk hcli
  · simp at hcli

/-- C3 with chain type 3 (`TypeOKEX`) and an `okex.NewClient` that is the
Ethereum constructor: the factory returns a nil error and a client whose
pointer is not nil. -/
theorem NewClient_nil_pointer_witness :
    (erc20sdk.NewClient aliasOkexExternal sampleConsts 3 (some 7) []).1
        = (ClientIface.ofPtr (some sampleClient), none)
      ∧ ∃ c, (erc20sdk.NewClient aliasOkexExternal sampleConsts 3 (some 7) []).1.1
          = ClientIface.ofPtr (some c) :=
  ⟨rfl, (NewClient_nil_pointer aliasOkexExternal sampleConsts 3 (some 7) [] rfl).2.2.2 _ rfl⟩

/-! ## Deployment -/

/-- C4: the deploy request handed to the builder carries the pair of the
parameter when both its `Abi` and its `ByteCode` are non-empty, and the
default pair when at least one of them is empty; in both cases `Params` is the
parameter's list and `From` is the client's current account. -/
theorem DeployContract_request (x : External) (k : Consts) (c : ethereum.Client)
    (p : erc20client.DeployERC20Param) (tr : Trace) :
    (p.Abi ≠ "" ∧ p.ByteCode ≠ "" →
        ethereum.Client.DeployContract x k c p tr
          = (x.buildDeployTx tr c.ctb
              { From := c.GetAccount, Abi := p.Abi, ByteCode := p.ByteCode, Params := p.Params },
             tr ++ [Call.buildDeployTx c.ctb
              { From := c.GetAccount, Abi := p.Abi, ByteCode := p.ByteCode,
                Params := p.Params }]))
      ∧ (p.Abi = "" ∨ p.ByteCode = "" →
        ethereum.Client.DeployContract x k c p tr
          = (x.buildDeployTx tr c.ctb
              { From := c.GetAccount, Abi := k.DefaultABI, ByteCode := k.DefaultByteCode,
                Params := p.Params },
             tr ++ [Call.buildDeployTx c.ctb
              { From := c.GetAccount, Abi := k.DefaultABI, ByteCode := k.DefaultByteCode,
                Params := p.Params }])) := by
  constructor
  · rintro ⟨ha, hb⟩
    have hn : ¬ (p.Abi = "" ∨ p.ByteCode = "") := fun h => h.elim ha hb
    simp only [ethereum.Client.DeployContract, if_neg hn]
  · intro h
    simp only [ethereum.Client.DeployContract, if_pos h]

/-- C4 with a custom pair, and with a custom ABI whose bytecode is empty. -/
theorem DeployContract_request_witness :
    ethereum.Client.DeployContract (sampleExternal []) sampleConsts
        (ethereum.Client.SetAccount sampleClient "0xA")
        ⟨"my-abi", "my-code", [GoValue.str "Tok", GoValue.uint8 18]⟩ []
      = ((some ⟨"my-code"⟩, none),
         [Call.buildDeployTx (some 20)
           ⟨"0xA", "my-abi", "my-code", [GoValue.str "Tok", GoValue.uint8 18]⟩])
      ∧ ethereum.Client.DeployContract (sampleExternal []) sampleConsts
        (ethereum.Client.SetAccount sampleClient "0xA")
        ⟨"my-abi", "", [GoValue.str "Tok", GoValue.uint8 18]⟩ []
      = ((some ⟨"default-bytecode"⟩, none),
         [Call.buildDeployTx (some 20)
           ⟨"0xA", "default-abi", "default-bytecode", [GoValue.str "Tok", GoValue.uint8 18]⟩]) :=
  ⟨(DeployContract_request (sampleExternal []) sampleConsts
      (ethereum.Client.SetAccount sampleClient "0xA")
      ⟨"my-abi", "my-code", [GoValue.str "Tok", GoValue.uint8 18]⟩ []).1
      ⟨by decide, by decide⟩,
   (DeployContract_request (sampleExternal []) sampleConsts
      (ethereum.Client.SetAccount sampleClient "0xA")
      ⟨"my-abi", "", [GoValue.str "Tok", GoValue.uint8 18]⟩ []).2 (Or.inr rfl)⟩

/-! ## Read methods -/

/-- The message of the type-assertion error. -/
theorem typeAssertError_eq (x : External) (q : QueryContractRes) :
    ethereum.typeAssertError x q
      = GoError.errno ⟨20001,
          errno.InvalidTypeAssert.Msg ++ ": raw queryRes is : " ++ x.fastMarshal q⟩ := by
  simp only [ethereum.typeAssertError, errno.Errno.Add, errno.InvalidTypeAssert,
    String.append_assoc]
  rfl

/-- C5: when the query executor returns `q` without error, each read method
returns the entry of `q.DecodeRes` under key "0" and a nil error if that entry
has the method's expected dynamic type (string for `Name` and `Symbol`, uint8
for `Decimals`, `*big.Int` for `TotalSupply`, `BalanceOf`, `Allowance`), and
otherwise (no entry, or another dynamic type) the zero value and an `Errno`
with `State` 20001 whose `Msg` is the `Msg` of `InvalidTypeAssert` followed by
": raw queryRes is : " and the serialized `q`. -/
theorem read_methods_type_assert (x : External) (k : Consts) (c : ethereum.Client)
    (tr : Trace) (addr owner spender : String) (q : QueryContractRes) :
    ethereum.typeAssertError x q
        = GoError.errno ⟨20001,
            errno.InvalidTypeAssert.Msg ++ ": raw queryRes is : " ++ x.fastMarshal q⟩
      ∧ (x.queryContract tr c.mc
            { From := "", ContractAddress := c.contractAddress, Abi := c.abi,
              CalledFunc := k.FuncName, Params := [] } = (q, none) →
          (∀ s, q.DecodeRes.lookup "0" = some (GoValue.str s) →
            (ethereum.Client.Name x k c tr).1 = (s, none))
          ∧ ((∀ s, q.DecodeRes.lookup "0" ≠ some (GoValue.str s)) →
            (ethereum.Client.Name x k c tr).1 = ("", some (ethereum.typeAssertError x q))))
      ∧ (x.queryContract tr c.mc
            { From := "", ContractAddress := c.contractAddress, Abi := k.DefaultABI,
              CalledFunc := k.FuncSymbol, Params := [] } = (q, none) →
          (∀ s, q.DecodeRes.lookup "0" = some (GoValue.str s) →
            (ethereum.Client.Symbol x k c tr).1 = (s, none))
          ∧ ((∀ s, q.DecodeRes.lookup "0" ≠ some (GoValue.str s)) →
            (ethereum.Client.Symbol x k c tr).1 = ("", some (ethereum.typeAssertError x q))))
      ∧ (x.queryContract tr c.mc
            { From := "", ContractAddress := c.contractAddress, Abi := k.DefaultABI,
              CalledFunc := k.FuncDecimals, Params := [] } = (q, none) →
          (∀ n, q.DecodeRes.lookup "0" = some (GoValue.uint8 n) →
            (ethereum.Client.Decimals x k c tr).1 = (n, none))
          ∧ ((∀ n, q.DecodeRes.lookup "0" ≠ some (GoValue.uint8 n)) →
            (ethereum.Client.Decimals x k c tr).1 = (0, some (ethereum.typeAssertError x q))))
      ∧ (x.queryContract tr c.mc
            { From := "", ContractAddress := c.contractAddress, Abi := k.DefaultABI,
              CalledFunc := k.FuncTotalSupply, Params := [] } = (q, none) →
          (∀ b, q.DecodeRes.lookup "0" = some (GoValue.bigInt b) →
            (ethereum.Client.TotalSupply x k c tr).1 = (b, none))
          ∧ ((∀ b, q.DecodeRes.lookup "0" ≠ some (GoValue.bigInt b)) →
            (ethereum.Client.TotalSupply x k c tr).1
              = (none, some (ethereum.typeAssertError x q))))
      ∧ (x.queryContract tr c.mc
            { From := "", ContractAddress := c.contractAddress, Abi := k.DefaultABI,
              CalledFunc := k.FuncBalanceOf, Params := [x.hexToAddress c.ae addr] }
            = (q, none) →
          (∀ b, q.DecodeRes.lookup "0" = some (GoValue.bigInt b) →
            (ethereum.Client.BalanceOf x k c addr tr).1 = (b, none))
          ∧ ((∀ b, q.DecodeRes.lookup "0" ≠ some (GoValue.bigInt b)) →
            (ethereum.Client.BalanceOf x k c addr tr).1
              = (none, some (ethereum.typeAssertError x q))))
      ∧ (x.queryContract tr c.mc
            { From := "", ContractAddress := c.contractAddress, Abi := k.DefaultABI,
              CalledFunc := k.FuncAllowance,
              Params := [x.hexToAddress c.ae owner, x.hexToAddress c.ae spender] }
            = (q, none) →
          (∀ b, q.DecodeRes.lookup "0" = some (GoValue.bigInt b) →
            (ethereum.Client.Allowance x k c owner spender tr).1 = (b, none))
          ∧ ((∀ b, q.DecodeRes.lookup "0" ≠ some (GoValue.bigInt b)) →
            (ethereum.Client.Allowance x k c owner spender tr).1
              = (none, some (ethereum.typeAssertError x q)))) := by
  refine ⟨typeAssertError_eq x q, ?_, ?_, ?_, ?_, ?_, ?_⟩
  · intro hq
    constructor
    · intro s hs
      simp [ethereum.Client.Name, hq, mapIndex, hs]
    · intro hs
      simp only [ethereum.Client.Name, hq, mapIndex]
      cases hl : q.DecodeRes.lookup "0" with
      | none => rfl
      | some v => cases v <;> first | rfl | exact absurd hl (hs _)
  · intro hq
    constructor
    · intro s hs
      simp [ethereum.Client.Symbol, hq, mapIndex, hs]
    · intro hs
      simp only [ethereum.Client.Symbol, hq, mapIndex]
      cases hl : q.DecodeRes.lookup "0" with
      | none => rfl
      | some v => cases v <;> first | rfl | exact absurd hl (hs _)
  · intro hq
    constructor
    · intro s hs
      simp [ethereum.Client.Decimals, hq, mapIndex, hs]
    · intro hs
      simp only [ethereum.Client.Decimals, hq, mapIndex]
      cases hl : q.DecodeRes.lookup "0" with
      | none => rfl
      | some v => cases v <;> first | rfl | exact absurd hl (hs _)
  · intro hq
    constructor
    · intro s hs
      simp [ethereum.Client.TotalSupply, hq, mapIndex, hs]
    · intro hs
      simp only [ethereum.Client.TotalSupply, hq, mapIndex]
      cases hl : q.DecodeRes.lookup "0" with
      | none => rfl
      | some v => cases v <;> first | rfl | exact absurd hl (hs _)
  · intro hq
    constructor
    · intro s hs
      simp [ethereum.Client.BalanceOf, hq, mapIndex, hs]
    · intro hs
      simp only [ethereum.Client.BalanceOf, hq, mapIndex]
      cases hl : q.DecodeRes.lookup "0" with
      | none => rfl
      | some v => cases v <;> first | rfl | exact absurd hl (hs _)
  · intro hq
    constructor
    · intro s hs
      simp [ethereum.Client.Allowance, hq, mapIndex, hs]
    · intro hs
      simp only [ethereum.Client.Allowance, hq, mapIndex]
      cases hl : q.DecodeRes.lookup "0" with
      | none => rfl
      | some v => cases v <;> first | rfl | exact absurd hl (hs _)

/-- C5 with a decoded map whose entry under "0" is the uint8 18: `Decimals`
returns 18, `Name` returns the type-assertion error. -/
theorem read_methods_type_assert_witness :
    (ethereum.Client.Decimals (sampleExternal [("0", GoValue.uint8 18)]) sampleConsts
        sampleClient []).1 = (18, none)
      ∧ (ethereum.Client.Name (sampleExternal [("0", GoValue.uint8 18)]) sampleConsts
        sampleClient []).1
        = ("", some (GoError.errno
            ⟨20001, "Invalid type asset: raw queryRes is : entries:1"⟩)) :=
  ⟨((read_methods_type_assert (sampleExternal [("0", GoValue.uint8 18)]) sampleConsts
      sampleClient [] "0xB" "0xB" "0xC" ⟨[("0", GoValue.uint8 18)]⟩).2.2.2.1 rfl).1 18 rfl,
   ((read_methods_type_assert (sampleExternal [("0", GoValue.uint8 18)]) sampleConsts
      sampleClient [] "0xB" "0xB" "0xC" ⟨[("0", GoValue.uint8 18)]⟩).2.1 rfl).2
      (fun s h => by simp [List.lookup] at h)⟩

/-- C9: when the query executor returns an error `e`, each read method returns
the zero value of its result type and `e` itself, whatever decoded result the
executor handed back with it. -/
theorem read_methods_error_passthrough (x : External) (k : Consts) (c : ethereum.Client)
    (tr : Trace) (addr owner spender : String) (q : QueryContractRes) (e : GoError) :
    (x.queryContract tr c.mc
          { From := "", ContractAddress := c.contractAddress, Abi := c.abi,
            CalledFunc := k.FuncName, Params := [] } = (q, some e) →
        (ethereum.Client.Name x k c tr).1 = ("", some e))
      ∧ (x.queryContract tr c.mc
          { From := "", ContractAddress := c.contractAddress, Abi := k.DefaultABI,
            CalledFunc := k.FuncSymbol, Params := [] } = (q, some e) →
        (ethereum.Client.Symbol x k c tr).1 = ("", some e))
      ∧ (x.queryContract tr c.mc
          { From := "", ContractAddress := c.contractAddress, Abi := k.DefaultABI,
            CalledFunc := k.FuncDecimals, Params := [] } = (q, some e) →
        (ethereum.Client.Decimals x k c tr).1 = (0, some e))
      ∧ (x.queryContract tr c.mc
          { From := "", ContractAddress := c.contractAddress, Abi := k.DefaultABI,
            CalledFunc := k.FuncTotalSupply, Params := [] } = (q, some e) →
        (ethereum.Client.TotalSupply x k c tr).1 = (none, some e))
      ∧ (x.queryContract tr c.mc
          { From := "", ContractAddress := c.contractAddress, Abi := k.DefaultABI,
            CalledFunc := k.FuncBalanceOf, Params := [x.hexToAddress c.ae addr] }
          = (q, some e) →
        (ethereum.Client.BalanceOf x k c addr tr).1 = (none, some e))
      ∧ (x.queryContract tr c.mc
          { From := "", ContractAddress := c.contractAddress, Abi := k.DefaultABI,
            CalledFunc := k.FuncAllowance,
            Params := [x.hexToAddress c.ae owner, x.hexToAddress c.ae spender] }
          = (q, some e) →
        (ethereum.Client.Allowance x k c owner spender tr).1 = (none, some e)) := by
  refine ⟨?_, ?_, ?_, ?_, ?_, ?_⟩
  · intro hq
    simp only [ethereum.Client.Name, hq]
  · intro hq
    simp only [ethereum.Client.Symbol, hq]
  · intro hq
    simp only [ethereum.Client.Decimals, hq]
  · intro hq
    simp only [ethereum.Client.TotalSupply, hq]
  · intro hq
    simp only [ethereum.Client.BalanceOf, hq]
  · intro hq
    simp only [ethereum.Client.Allowance, hq]

/-- C9 with an executor that fails while handing back a map that holds a
string under "0": `Name` returns the executor's error, not the string. -/
theorem read_methods_error_passthrough_witness :
    (ethereum.Client.Name (failingQueryExternal [("0", GoValue.str "Tok")]) sampleConsts
        sampleClient []).1 = ("", some (GoError.external "rpc down"))
      ∧ (ethereum.Client.BalanceOf (failingQueryExternal [("0", GoValue.bigInt (some 5))])
        sampleConsts sampleClient "0xB" []).1 = (none, some (GoError.external "rpc down")) :=
  ⟨(read_methods_error_passthrough (failingQueryExternal [("0", GoValue.str "Tok")])
      sampleConsts sampleClient [] "0xB" "0xB" "0xC" ⟨[("0", GoValue.str "Tok")]⟩
      (GoError.external "rpc down")).1 rfl,
   (read_methods_error_passthrough (failingQueryExternal [("0", GoValue.bigInt (some 5))])
      sampleConsts sampleClient [] "0xB" "0xB" "0xC" ⟨[("0", GoValue.bigInt (some 5))]⟩
      (GoError.external "rpc down")).2.2.2.2.1 rfl⟩

/-! ## Sequences of calls on one client -/

/-- The method `Name` makes one query, whatever it returns. -/
theorem Name_trace (x : External) (k : Consts) (c : ethereum.Client) (tr : Trace) :
    (ethereum.Client.Name x k c tr).2
      = tr ++ [Call.queryContract c.mc
        { From := "", ContractAddress := c.contractAddress, Abi := c.abi,
          CalledFunc := k.FuncName, Params := [] }] := by
  simp only [ethereum.Client.Name]
  split <;> [rfl; (split <;> rfl)]

/-- The method `Symbol` makes one query, whatever it returns. -/
theorem Symbol_trace (x : External) (k : Consts) (c : ethereum.Client) (tr : Trace) :
    (ethereum.Client.Symbol x k c tr).2
      = tr ++ [Call.queryContract c.mc
        { From := "", ContractAddress := c.contractAddress, Abi := k.DefaultABI,
          CalledFunc := k.FuncSymbol, Params := [] }] := by
  simp only [ethereum.Client.Symbol]
  split <;> [rfl; (split <;> rfl)]

/-- The method `Decimals` makes one query, whatever it returns. -/
theorem Decimals_trace (x : External) (k : Consts) (c : ethereum.Client) (tr : Trace) :
    (ethereum.Client.Decimals x k c tr).2
      = tr ++ [Call.queryContract c.mc
        { From := "", ContractAddress := c.contractAddress, Abi := k.DefaultABI,
          CalledFunc := k.FuncDecimals, Params := [] }] := by
  simp only [ethereum.Client.Decimals]
  split <;> [rfl; (split <;> rfl)]

/-- The method `TotalSupply` makes one query, whatever it returns. -/
theorem TotalSupply_trace (x : External) (k : Consts) (c : ethereum.Client) (tr : Trace) :
    (ethereum.Client.TotalSupply x k c tr).2
      = tr ++ [Call.queryContract c.mc
        { From := "", ContractAddress := c.contractAddress, Abi := k.DefaultABI,
          CalledFunc := k.FuncTotalSupply, Params := [] }] := by
  simp only [ethereum.Client.TotalSupply]
  split <;> [rfl; (split <;> rfl)]

/-- The method `BalanceOf` makes one query, whatever it returns. -/
theorem BalanceOf_trace (x : External) (k : Consts) (c : ethereum.Client) (addr : String) (tr : Trace) :
    (ethereum.Client.BalanceOf x k c addr tr).2
      = tr ++ [Call.queryContract c.mc
        { From := "", ContractAddress := c.contractAddress, Abi := k.DefaultABI,
          CalledFunc := k.FuncBalanceOf, Params := [x.hexToAddress c.ae addr] }] := by
  simp only [ethereum.Client.BalanceOf]
  split <;> [rfl; (split <;> rfl)]

/-- The method `Allowance` makes one query, whatever it returns. -/
theorem Allowance_trace (x : External) (k : Consts) (c : ethereum.Client) (owner spender : String) (tr : Trace) :
    (ethereum.Client.Allowance x k c owner spender tr).2
      = tr ++ [Call.queryContract c.mc
        { From := "", ContractAddress := c.contractAddress, Abi := k.DefaultABI,
          CalledFunc := k.FuncAllowance,
          Params := [x.hexToAddress c.ae owner, x.hexToAddress c.ae spender] }] := by
  simp only [ethereum.Client.Allowance]
  split <;> [rfl; (split <;> rfl)]

/-- One method call extends the trace, and every request it adds carries the
client's account as `From` and the client's ABI or the default ABI as `Abi`
(for a query or an invoke request). -/
theorem Op.apply_trace (x : External) (k : Consts) (op : Op) (s : ethereum.Client × Trace) :
    ∃ calls, (Op.apply x k op s).2 = s.2 ++ calls
      ∧ ∀ call ∈ calls, (∀ f, call.sender = some f → f = s.1.defaultAccount)
          ∧ (∀ a, call.callAbi = some a → a = s.1.abi ∨ a = k.DefaultABI) := by
  cases op
  case GetAccount => exact ⟨[], by simp [Op.apply], by simp⟩
  case SetAccount => exact ⟨[], by simp [Op.apply], by simp⟩
  case SetContractAddress => exact ⟨[], by simp [Op.apply], by simp⟩
  case SetProvider p =>
    exact ⟨[Call.mcSetProvider s.1.mc p], rfl, by simp [Call.sender, Call.callAbi]⟩
  case SetPrivate p =>
    exact ⟨[Call.mcSetPrivate s.1.mc p], rfl, by simp [Call.sender, Call.callAbi]⟩
  case Name =>
    exact ⟨_, Name_trace x k s.1 s.2, by simp [Call.sender, Call.callAbi]⟩
  case Symbol =>
    exact ⟨_, Symbol_trace x k s.1 s.2, by simp [Call.sender, Call.callAbi]⟩
  case Decimals =>
    exact ⟨_, Decimals_trace x k s.1 s.2, by simp [Call.sender, Call.callAbi]⟩
  case TotalSupply =>
    exact ⟨_, TotalSupply_trace x k s.1 s.2, by simp [Call.sender, Call.callAbi]⟩
  case BalanceOf addr =>
    exact ⟨_, BalanceOf_trace x k s.1 _ s.2, by simp [Call.sender, Call.callAbi]⟩
  case Allowance owner spender =>
    exact ⟨_, Allowance_trace x k s.1 _ _ s.2, by simp [Call.sender, Call.callAbi]⟩
  case DeployContract param =>
    exact ⟨[Call.buildDeployTx s.1.ctb _], rfl,
      by simp [Call.sender, Call.callAbi, ethereum.Client.GetAccount]⟩
  case Transfer toAddr value option =>
    exact ⟨[Call.buildInvokeTx s.1.ctb _], rfl,
      by simp [Call.sender, Call.callAbi, ethereum.Client.GetAccount]⟩
  case TransferFrom sender toAddr value =>
    exact ⟨[Call.buildInvokeTx s.1.ctb _], rfl,
      by simp [Call.sender, Call.callAbi, ethereum.Client.GetAccount]⟩
  case Approve spender value =>
    exact ⟨[Call.buildInvokeTx s.1.ctb _], rfl,
      by simp [Call.sender, Call.callAbi, ethereum.Client.GetAccount]⟩
  case Mint address amount =>
    exact ⟨[Call.buildInvokeTx s.1.ctb _], rfl,
      by simp [Call.sender, Call.callAbi, ethereum.Client.GetAccount]⟩
  case Burn address amount =>
    exact ⟨[Call.buildInvokeTx s.1.ctb _], rfl,
      by simp [Call.sender, Call.callAbi, ethereum.Client.GetAccount]⟩

/-- No method call changes the client's ABI. -/
theorem Op.apply_abi (x : External) (k : Consts) (op : Op) (s : ethereum.Client × Trace) :
    (Op.apply x k op s).1.abi = s.1.abi := by
  cases op <;> rfl

/-- Only `SetAccount` changes the client's account. -/
theorem Op.apply_defaultAccount (x : External) (k : Consts) (op : Op)
    (s : ethereum.Client × Trace) (h : op.isSetAccount = false) :
    (Op.apply x k op s).1.defaultAccount = s.1.defaultAccount := by
  cases op <;> first | rfl | simp [Op.isSetAccount] at h

/-- Only `SetContractAddress` changes the client's contract address. -/
theorem Op.apply_contractAddress (x : External) (k : Consts) (op : Op)
    (s : ethereum.Client × Trace) (h : op.isSetContractAddress = false) :
    (Op.apply x k op s).1.contractAddress = s.1.contractAddress := by
  cases op <;> first | rfl | simp [Op.isSetContractAddress] at h

/-- A sequence without `SetContractAddress` keeps the contract address. -/
theorem runOps_contractAddress (x : External) (k : Consts) (ops : List Op)
    (h : ∀ op ∈ ops, op.isSetContractAddress = false) (s : ethereum.Client × Trace) :
    (runOps x k ops s).1.contractAddress = s.1.contractAddress := by
  induction ops generalizing s with
  | nil => rfl
  | cons op rest ih =>
    have h1 := ih (fun o ho => h o (List.mem_cons_of_mem _ ho)) (Op.apply x k op s)
    have h2 := Op.apply_contractAddress x k op s (h op (List.mem_cons_self _ _))
    simp only [runOps, List.foldl_cons] at h1 ⊢
    rw [h1, h2]

/-- A sequence without `SetAccount` keeps the account, and every request it
adds to the trace carries that account as `From`. -/
theorem runOps_account (x : External) (k : Consts) (ops : List Op)
    (h : ∀ op ∈ ops, op.isSetAccount = false) (s : ethereum.Client × Trace) :
    (runOps x k ops s).1.defaultAccount = s.1.defaultAccount
      ∧ ∃ calls, (runOps x k ops s).2 = s.2 ++ calls
          ∧ ∀ call ∈ calls, ∀ f, call.sender = some f → f = s.1.defaultAccount := by
  induction ops generalizing s with
  | nil => exact ⟨rfl, [], by simp [runOps], by simp⟩
  | cons op rest ih =>
    obtain ⟨h1, calls1, ht1, hc1⟩ :=
      ih (fun o ho => h o (List.mem_cons_of_mem _ ho)) (Op.apply x k op s)
    have h2 := Op.apply_defaultAccount x k op s (h op (List.mem_cons_self _ _))
    obtain ⟨calls0, ht0, hc0⟩ := Op.apply_trace x k op s
    simp only [runOps, List.foldl_cons] at h1 ht1 ⊢
    refine ⟨by rw [h1, h2], calls0 ++ calls1, by rw [ht1, ht0, List.append_assoc], ?_⟩
    intro call hcall f hf
    rcases List.mem_append.mp hcall with hm | hm
    · exact (hc0 call hm).1 f hf
    · rw [← h2]
      exact hc1 call hm f hf

/-- No sequence changes the ABI, and every query or invoke request a sequence
adds to the trace carries the client's ABI or the default ABI. -/
theorem runOps_abi (x : External) (k : Consts) (ops : List Op) (s : ethereum.Client × Trace) :
    (runOps x k ops s).1.abi = s.1.abi
      ∧ ∃ calls, (runOps x k ops s).2 = s.2 ++ calls
          ∧ ∀ call ∈ calls, ∀ a, call.callAbi = some a → a = s.1.abi ∨ a = k.DefaultABI := by
  induction ops generalizing s with
  | nil => exact ⟨rfl, [], by simp [runOps], by simp⟩
  | cons op rest ih =>
    obtain ⟨h1, calls1, ht1, hc1⟩ := ih (Op.apply x k op s)
    have h2 := Op.apply_abi x k op s
    obtain ⟨calls0, ht0, hc0⟩ := Op.apply_trace x k op s
    simp only [runOps, List.foldl_cons] at h1 ht1 ⊢
    refine ⟨by rw [h1, h2], calls0 ++ calls1, by rw [ht1, ht0, List.append_assoc], ?_⟩
    intro call hcall a ha
    rcases List.mem_append.mp hcall with hm | hm
    · exact (hc0 call hm).2 a ha
    · rw [← h2]
      exact hc1 call hm a ha

/-! ## Write methods -/

/-- C6: on a client whose contract address was last set to `addr`, each write
method returns what the invoke-transaction builder returns for the request
with the method's function-name constant, `ContractAddress = addr`, and the
call arguments in call order with the address strings encoded; the
`CrossChainOption` of `Transfer` does not occur in the request. -/
theorem write_methods_request (x : External) (k : Consts) (c : ethereum.Client) (addr : String)
    (ops : List Op) (tr0 tr : Trace) (c1 : ethereum.Client)
    (hops : ∀ op ∈ ops, op.isSetContractAddress = false)
    (hc1 : c1 = (runOps x k ops (ethereum.Client.SetContractAddress c addr, tr0)).1)
    (toAddr sender spender address : String) (value amount : Option Int)
    (option : Option erc20client.CrossChainOption) :
    ethereum.Client.Transfer x k c1 toAddr value option tr
        = (x.buildInvokeTx tr c1.ctb
            { From := c1.GetAccount, Abi := c1.abi, Method := k.FuncTransfer,
              ContractAddress := addr,
              Params := [x.hexToAddress c1.ae toAddr, GoValue.bigInt value] },
           tr ++ [Call.buildInvokeTx c1.ctb
            { From := c1.GetAccount, Abi := c1.abi, Method := k.FuncTransfer,
              ContractAddress := addr,
              Params := [x.hexToAddress c1.ae toAddr, GoValue.bigInt value] }])
      ∧ ethereum.Client.TransferFrom x k c1 sender toAddr value tr
        = (x.buildInvokeTx tr c1.ctb
            { From := c1.GetAccount, Abi := c1.abi, Method := k.FuncTransferFrom,
              ContractAddress := addr,
              Params := [x.hexToAddress c1.ae sender, x.hexToAddress c1.ae toAddr,
                GoValue.bigInt value] },
           tr ++ [Call.buildInvokeTx c1.ctb
            { From := c1.GetAccount, Abi := c1.abi, Method := k.FuncTransferFrom,
              ContractAddress := addr,
              Params := [x.hexToAddress c1.ae sender, x.hexToAddress c1.ae toAddr,
                GoValue.bigInt value] }])
      ∧ ethereum.Client.Approve x k c1 spender value tr
        = (x.buildInvokeTx tr c1.ctb
            { From := c1.GetAccount, Abi := c1.abi, Method := k.FuncApprove,
              ContractAddress := addr,
              Params := [x.hexToAddress c1.ae spender, GoValue.bigInt value] },
           tr ++ [Call.buildInvokeTx c1.ctb
            { From := c1.GetAccount, Abi := c1.abi, Method := k.FuncApprove,
              ContractAddress := addr,
              Params := [x.hexToAddress c1.ae spender, GoValue.bigInt value] }])
      ∧ ethereum.Client.Mint x k c1 address amount tr
        = (x.buildInvokeTx tr c1.ctb
            { From := c1.GetAccount, Abi := c1.abi, Method := k.FuncMint,
              ContractAddress := addr,
              Params := [x.hexToAddress c1.ae address, GoValue.bigInt amount] },
           tr ++ [Call.buildInvokeTx c1.ctb
            { From := c1.GetAccount, Abi := c1.abi, Method := k.FuncMint,
              ContractAddress := addr,
              Params := [x.hexToAddress c1.ae address, GoValue.bigInt amount] }])
      ∧ ethereum.Client.Burn x k c1 address amount tr
        = (x.buildInvokeTx tr c1.ctb
            { From := c1.GetAccount, Abi := c1.abi, Method := k.FuncBurn,
              ContractAddress := addr,
              Params := [x.hexToAddress c1.ae address, GoValue.bigInt amount] },
           tr ++ [Call.buildInvokeTx c1.ctb
            { From := c1.GetAccount, Abi := c1.abi, Method := k.FuncBurn,
              ContractAddress := addr,
              Params := [x.hexToAddress c1.ae address, GoValue.bigInt amount] }]) := by
  have haddr : c1.contractAddress = addr := by
    rw [hc1, runOps_contractAddress x k ops hops]
    rfl
  subst haddr
  exact ⟨rfl, rfl, rfl, rfl, rfl⟩

/-- C6 on the scenario of the specification: contract address "0xC", account
"0xA", then `Approve("0xSpender", 100)`. -/
theorem write_methods_request_witness :
    ethereum.Client.Approve (sampleExternal []) sampleConsts
        (runOps (sampleExternal []) sampleConsts [Op.SetAccount "0xA", Op.Name]
          (ethereum.Client.SetContractAddress sampleClient "0xC", [])).1
        "0xSpender" (some 100) []
      = ((some ⟨"approve"⟩, none),
         [Call.buildInvokeTx (some 20)
           { From := "0xA", Abi := "default-abi", Method := "approve", ContractAddress := "0xC",
             Params := [GoValue.address "0xSpender", GoValue.bigInt (some 100)] }]) :=
  (write_methods_request (sampleExternal []) sampleConsts sampleClient "0xC"
    [Op.SetAccount "0xA", Op.Name] [] [] _ (by decide) rfl
    "0xB" "0xD" "0xSpender" "0xE" (some 100) (some 1) none).2.2.1

/-! ## The account -/

/-- A write method or `DeployContract` adds exactly one build request to the
trace, and its `From` is the client's account. -/
theorem Op.apply_build (x : External) (k : Consts) (op : Op) (s : ethereum.Client × Trace)
    (h : op.isBuild = true) :
    ∃ call, (Op.apply x k op s).2 = s.2 ++ [call] ∧ call.sender = some s.1.defaultAccount := by
  cases op
  case DeployContract param => exact ⟨_, rfl, rfl⟩
  case Transfer toAddr value option => exact ⟨_, rfl, rfl⟩
  case TransferFrom sender toAddr value => exact ⟨_, rfl, rfl⟩
  case Approve spender value => exact ⟨_, rfl, rfl⟩
  case Mint address amount => exact ⟨_, rfl, rfl⟩
  case Burn address amount => exact ⟨_, rfl, rfl⟩
  all_goals simp [Op.isBuild] at h

/-- A sequence followed by one more call. -/
theorem runOps_snoc (x : External) (k : Consts) (pre : List Op) (op : Op)
    (s : ethereum.Client × Trace) :
    runOps x k (pre ++ [op]) s = Op.apply x k op (runOps x k pre s) := by
  simp [runOps, List.foldl_append]

/-- C7: after `SetAccount(a)`, `GetAccount()` returns `a`, and it still does
after any sequence of calls that holds no further `SetAccount`; every invoke
and deploy request built during that sequence has `From = a`; each write
method and each `DeployContract` of the sequence adds exactly one build
request, with `From = a`, to the trace; and on the client as it is after the
sequence, every write method and `DeployContract` hands the builder a request
whose `From` is `a` and returns the builder's answer. -/
theorem account_persists (x : External) (k : Consts) (c : ethereum.Client) (a : String)
    (ops : List Op) (tr : Trace) (hops : ∀ op ∈ ops, op.isSetAccount = false) :
    (ethereum.Client.SetAccount c a).GetAccount = a
      ∧ (runOps x k ops (ethereum.Client.SetAccount c a, tr)).1.GetAccount = a
      ∧ (∃ calls, (runOps x k ops (ethereum.Client.SetAccount c a, tr)).2 = tr ++ calls
          ∧ ∀ call ∈ calls, (∀ ctb req, call = Call.buildInvokeTx ctb req → req.From = a)
              ∧ (∀ ctb req, call = Call.buildDeployTx ctb req → req.From = a))
      ∧ (∀ pre op post, ops = pre ++ op :: post → op.isBuild = true →
          ∃ call, (runOps x k (pre ++ [op]) (ethereum.Client.SetAccount c a, tr)).2
                = (runOps x k pre (ethereum.Client.SetAccount c a, tr)).2 ++ [call]
              ∧ call.sender = some a)
      ∧ (∀ c1, c1 = (runOps x k ops (ethereum.Client.SetAccount c a, tr)).1 →
          ∀ (tr1 : Trace) (toAddr sender spender address : String) (value amount : Option Int)
            (option : Option erc20client.CrossChainOption)
            (param : erc20client.DeployERC20Param),
          ethereum.Client.Transfer x k c1 toAddr value option tr1
              = (x.buildInvokeTx tr1 c1.ctb
                  { From := a, Abi := c1.abi, Method := k.FuncTransfer,
                    ContractAddress := c1.contractAddress,
                    Params := [x.hexToAddress c1.ae toAddr, GoValue.bigInt value] },
                 tr1 ++ [Call.buildInvokeTx c1.ctb
                  { From := a, Abi := c1.abi, Method := k.FuncTransfer,
                    ContractAddress := c1.contractAddress,
                    Params := [x.hexToAddress c1.ae toAddr, GoValue.bigInt value] }])
            ∧ ethereum.Client.TransferFrom x k c1 sender toAddr value tr1
              = (x.buildInvokeTx tr1 c1.ctb
                  { From := a, Abi := c1.abi, Method := k.FuncTransferFrom,
                    ContractAddress := c1.contractAddress,
                    Params := [x.hexToAddress c1.ae sender, x.hexToAddress c1.ae toAddr,
                      GoValue.bigInt value] },
                 tr1 ++ [Call.buildInvokeTx c1.ctb
                  { From := a, Abi := c1.abi, Method := k.FuncTransferFrom,
                    ContractAddress := c1.contractAddress,
                    Params := [x.hexToAddress c1.ae sender, x.hexToAddress c1.ae toAddr,
                      GoValue.bigInt value] }])
            ∧ ethereum.Client.Approve x k c1 spender value tr1
              = (x.buildInvokeTx tr1 c1.ctb
                  { From := a, Abi := c1.abi, Method := k.FuncApprove,
                    ContractAddress := c1.contractAddress,
                    Params := [x.hexToAddress c1.ae spender, GoValue.bigInt value] },
                 tr1 ++ [Call.buildInvokeTx c1.ctb
                  { From := a, Abi := c1.abi, Method := k.FuncApprove,
                    ContractAddress := c1.contractAddress,
                    Params := [x.hexToAddress c1.ae spender, GoValue.bigInt value] }])
            ∧ ethereum.Client.Mint x k c1 address amount tr1
              = (x.buildInvokeTx tr1 c1.ctb
                  { From := a, Abi := c1.abi, Method := k.FuncMint,
                    ContractAddress := c1.contractAddress,
                    Params := [x.hexToAddress c1.ae address, GoValue.bigInt amount] },
                 tr1 ++ [Call.buildInvokeTx c1.ctb
                  { From := a, Abi := c1.abi, Method := k.FuncMint,
                    ContractAddress := c1.contractAddress,
                    Params := [x.hexToAddress c1.ae address, GoValue.bigInt amount] }])
            ∧ ethereum.Client.Burn x k c1 address amount tr1
              = (x.buildInvokeTx tr1 c1.ctb
                  { From := a, Abi := c1.abi, Method := k.FuncBurn,
                    ContractAddress := c1.contractAddress,
                    Params := [x.hexToAddress c1.ae address, GoValue.bigInt amount] },
                 tr1 ++ [Call.buildInvokeTx c1.ctb
                  { From := a, Abi := c1.abi, Method := k.FuncBurn,
                    ContractAddress := c1.contractAddress,
                    Params := [x.hexToAddress c1.ae address, GoValue.bigInt amount] }])
            ∧ ethereum.Client.DeployContract x k c1 param tr1
              = (x.buildDeployTx tr1 c1.ctb
                  { From := a,
                    Abi := if param.Abi = "" ∨ param.ByteCode = "" then k.DefaultABI
                      else param.Abi,
                    ByteCode := if param.Abi = "" ∨ param.ByteCode = "" then k.DefaultByteCode
                      else param.ByteCode,
                    Params := param.Params },
                 tr1 ++ [Call.buildDeployTx c1.ctb
                  { From := a,
                    Abi := if param.Abi = "" ∨ param.ByteCode = "" then k.DefaultABI
                      else param.Abi,
                    ByteCode := if param.Abi = "" ∨ param.ByteCode = "" then k.DefaultByteCode
                      else param.ByteCode,
                    Params := param.Params }])) := by
  obtain ⟨h1, calls, h2, h3⟩ := runOps_account x k ops hops (ethereum.Client.SetAccount c a, tr)
  refine ⟨rfl, h1, ⟨calls, h2, ?_⟩, ?_, ?_⟩
  · intro call hcall
    constructor
    · intro ctb req hreq
      exact h3 call hcall req.From (by rw [hreq]; rfl)
    · intro ctb req hreq
      exact h3 call hcall req.From (by rw [hreq]; rfl)
  · intro pre op post hsplit hbuild
    have hpre : ∀ o ∈ pre, o.isSetAccount = false := by
      intro o ho
      exact hops o (by rw [hsplit]; exact List.mem_append_left _ ho)
    have hacc := (runOps_account x k pre hpre (ethereum.Client.SetAccount c a, tr)).1
    obtain ⟨call, hc1, hc2⟩ :=
      Op.apply_build x k op (runOps x k pre (ethereum.Client.SetAccount c a, tr)) hbuild
    refine ⟨call, ?_, ?_⟩
    · rw [runOps_snoc, hc1]
    · rw [hc2, hacc]
      rfl
  · intro c1 hc1 tr1 toAddr sender spender address value amount option param
    have hacc : c1.defaultAccount = a := by
      rw [hc1]
      exact h1
    refine ⟨?_, ?_, ?_, ?_, ?_, ?_⟩
    · simp only [ethereum.Client.Transfer, ethereum.Client.GetAccount, hacc]
    · simp only [ethereum.Client.TransferFrom, ethereum.Client.GetAccount, hacc]
    · simp only [ethereum.Client.Approve, ethereum.Client.GetAccount, hacc]
    · simp only [ethereum.Client.Mint, ethereum.Client.GetAccount, hacc]
    · simp only [ethereum.Client.Burn, ethereum.Client.GetAccount, hacc]
    · by_cases hd : param.Abi = "" ∨ param.ByteCode = ""
      · simp only [ethereum.Client.DeployContract, ethereum.Client.GetAccount, hacc, if_pos hd]
      · simp only [ethereum.Client.DeployContract, ethereum.Client.GetAccount, hacc, if_neg hd]

/-- C7 with account "0xA" and a sequence of a contract-address change, a
read, a transfer and a deployment; a `Burn` on the client after the sequence
hands the builder a request with `From = "0xA"`. -/
theorem account_persists_witness :
    (runOps (sampleExternal []) sampleConsts
        [Op.SetContractAddress "0xC", Op.Name, Op.Transfer "0xB" (some 5) none,
          Op.DeployContract ⟨"", "", []⟩]
        (ethereum.Client.SetAccount sampleClient "0xA", [])).1.GetAccount = "0xA"
      ∧ (runOps (sampleExternal []) sampleConsts
        [Op.SetContractAddress "0xC", Op.Name, Op.Transfer "0xB" (some 5) none,
          Op.DeployContract ⟨"", "", []⟩]
        (ethereum.Client.SetAccount sampleClient "0xA", [])).2
        = [Call.queryContract (some 10) ⟨"", "0xC", "default-abi", "name", []⟩,
           Call.buildInvokeTx (some 20)
             ⟨"0xA", "default-abi", "transfer", "0xC",
               [GoValue.address "0xB", GoValue.bigInt (some 5)]⟩,
           Call.buildDeployTx (some 20) ⟨"0xA", "default-abi", "default-bytecode", []⟩]
      ∧ ethereum.Client.Burn (sampleExternal []) sampleConsts
        (runOps (sampleExternal []) sampleConsts
          [Op.SetContractAddress "0xC", Op.Name, Op.Transfer "0xB" (some 5) none,
            Op.DeployContract ⟨"", "", []⟩]
          (ethereum.Client.SetAccount sampleClient "0xA", [])).1 "0xD" (some 2) []
        = ((some ⟨"burn"⟩, none),
           [Call.buildInvokeTx (some 20)
             ⟨"0xA", "default-abi", "burn", "0xC",
               [GoValue.address "0xD", GoValue.bigInt (some 2)]⟩]) :=
  ⟨(account_persists (sampleExternal []) sampleConsts sampleClient "0xA"
      [Op.SetContractAddress "0xC", Op.Name, Op.Transfer "0xB" (some 5) none,
        Op.DeployContract ⟨"", "", []⟩] [] (by decide)).2.1, rfl,
   ((account_persists (sampleExternal []) sampleConsts sampleClient "0xA"
      [Op.SetContractAddress "0xC", Op.Name, Op.Transfer "0xB" (some 5) none,
        Op.DeployContract ⟨"", "", []⟩] [] (by decide)).2.2.2.2 _ rfl
      [] "0xB" "0xB" "0xB" "0xD" (some 5) (some 2) none ⟨"", "", []⟩).2.2.2.2.1⟩

/-! ## The ABI -/

/-- A client built by `ethereum.NewClient` holds the default ABI. -/
theorem ethereum_NewClient_abi (x : External) (k : Consts) (provider : CommonProvider)
    (tr tr1 : Trace) (c : ethereum.Client)
    (h : ethereum.NewClient x k provider tr = ((some c, none), tr1)) :
    c.abi = k.DefaultABI := by
  unfold ethereum.NewClient at h
  simp only at h
  split at h
  · simp at h
  · split at h
    · simp at h
    · split at h
      · simp at h
      · split at h
        · simp at h
        · simp only [Prod.mk.injEq, Option.some.injEq, and_true] at h
          rw [← h.1]

/-- C10: a client built by `ethereum.NewClient` holds `DefaultABI`; no
sequence of method calls (configuration, reads, writes, deployments with a
custom ABI) changes it; and every query request and every invoke request made
during such a sequence carries `Abi = DefaultABI`, the request of `Name`
included. -/
theorem abi_invariant (x : External) (k : Consts) (provider : CommonProvider)
    (tr tr1 : Trace) (c : ethereum.Client)
    (hnew : ethereum.NewClient x k provider tr = ((some c, none), tr1)) (ops : List Op) :
    c.abi = k.DefaultABI
      ∧ (runOps x k ops (c, tr1)).1.abi = k.DefaultABI
      ∧ ∃ calls, (runOps x k ops (c, tr1)).2 = tr1 ++ calls
          ∧ ∀ call ∈ calls, (∀ mc req, call = Call.queryContract mc req → req.Abi = k.DefaultABI)
              ∧ (∀ ctb req, call = Call.buildInvokeTx ctb req → req.Abi = k.DefaultABI) := by
  have habi := ethereum_NewClient_abi x k provider tr tr1 c hnew
  obtain ⟨h1, calls, h2, h3⟩ := runOps_abi x k ops (c, tr1)
  refine ⟨habi, by rw [h1]; exact habi, calls, h2, ?_⟩
  intro call hcall
  constructor
  · intro mc req hreq
    rcases h3 call hcall req.Abi (by rw [hreq]; rfl) with h | h
    · rw [h]; exact habi
    · exact h
  · intro ctb req hreq
    rcases h3 call hcall req.Abi (by rw [hreq]; rfl) with h | h
    · rw [h]; exact habi
    · exact h

/-- C10 with a deployment that passes a custom ABI, followed by `Name`,
`Symbol` and `Mint`: the three later requests carry the default ABI. -/
theorem abi_invariant_witness :
    (runOps (sampleExternal []) sampleConsts
        [Op.DeployContract ⟨"my-abi", "my-code", []⟩, Op.Name, Op.Symbol,
          Op.Mint "0xB" (some 9)]
        (sampleClient, (ethereum.NewClient (sampleExternal []) sampleConsts (some 7) []).2)).1.abi
        = "default-abi"
      ∧ (runOps (sampleExternal []) sampleConsts
        [Op.DeployContract ⟨"my-abi", "my-code", []⟩, Op.Name, Op.Symbol,
          Op.Mint "0xB" (some 9)]
        (sampleClient, [])).2
        = [Call.buildDeployTx (some 20) ⟨"", "my-abi", "my-code", []⟩,
           Call.queryContract (some 10) ⟨"", "", "default-abi", "name", []⟩,
           Call.queryContract (some 10) ⟨"", "", "default-abi", "symbol", []⟩,
           Call.buildInvokeTx (some 20)
             ⟨"", "default-abi", "mint", "", [GoValue.address "0xB", GoValue.bigInt (some 9)]⟩] :=
  ⟨(abi_invariant (sampleExternal []) sampleConsts (some 7) [] _ sampleClient rfl
      [Op.DeployContract ⟨"my-abi", "my-code", []⟩, Op.Name, Op.Symbol,
        Op.Mint "0xB" (some 9)]).2.1, rfl⟩

/-! ## Error values -/

/-- A run of `Add` calls leaves every cell that existed before it unchanged. -/
theorem AddMany_preserves (calls : List (Nat × String)) (hp : errno.ErrnoHeap) (i : Nat)
    (hi : i < hp.length) : (errno.Errno.AddMany hp calls)[i]? = hp[i]? := by
  induction calls generalizing hp with
  | nil => rfl
  | cons call rest ih =>
    obtain ⟨p, s⟩ := call
    unfold errno.Errno.AddMany
    cases hadd : errno.Errno.AddAt hp p s with
    | none => exact ih hp hi
    | some r =>
      obtain ⟨q, hp1⟩ := r
      simp only [errno.Errno.AddAt] at hadd
      split at hadd
      · simp at hadd
      · simp only [Option.some.injEq, Prod.mk.injEq] at hadd
        have hlen : i < hp1.length := by
          rw [← hadd.2]
          simp only [List.length_append, List.length_singleton]
          omega
        show (errno.Errno.AddMany hp1 rest)[i]? = hp[i]?
        rw [ih hp1 hlen, ← hadd.2, List.getElem?_append_left hi]

/-- C8: `Add` on an `Errno` or a `ResponseErrno` yields a value whose `Msg` is
the receiver's `Msg` followed by ": " and the argument, whose other fields are
the receiver's, and whose `Error()` is the extended message; called through a
pointer it puts the result in a fresh cell and leaves the receiver's cell, and
every other cell, unchanged; so the three sentinels keep their `State` and
`Msg` after any run of `Add` calls. -/
theorem Add_copy_semantics :
    (∀ (e : errno.Errno) (s : String),
        (errno.Errno.Add e s).Msg = e.Msg ++ ": " ++ s
          ∧ (errno.Errno.Add e s).State = e.State
          ∧ (errno.Errno.Add e s).Error = e.Msg ++ ": " ++ s)
      ∧ (∀ (e : errno.ResponseErrno) (s : String),
        (errno.ResponseErrno.Add e s).Msg = e.Msg ++ ": " ++ s
          ∧ (errno.ResponseErrno.Add e s).State = e.State
          ∧ (errno.ResponseErrno.Add e s).HttpCode = e.HttpCode
          ∧ (errno.ResponseErrno.Add e s).OriginBody = e.OriginBody
          ∧ (errno.ResponseErrno.Add e s).Error = e.Msg ++ ": " ++ s)
      ∧ (∀ (hp : errno.ErrnoHeap) (p : Nat) (s : String) (e : errno.Errno), hp[p]? = some e →
        ∃ hp1, errno.Errno.AddAt hp p s = some (hp.length, hp1)
          ∧ hp1[hp.length]? = some ⟨e.State, e.Msg ++ ": " ++ s⟩
          ∧ hp1[p]? = some e
          ∧ ∀ i, i < hp.length → hp1[i]? = hp[i]?)
      ∧ (∀ (hp : errno.ResponseErrnoHeap) (p : Nat) (s : String) (e : errno.ResponseErrno),
        hp[p]? = some e →
        ∃ hp1, errno.ResponseErrno.AddAt hp p s = some (hp.length, hp1)
          ∧ hp1[hp.length]? = some ⟨e.State, e.Msg ++ ": " ++ s, e.HttpCode, e.OriginBody⟩
          ∧ hp1[p]? = some e
          ∧ ∀ i, i < hp.length → hp1[i]? = hp[i]?)
      ∧ (∀ calls : List (Nat × String),
        (errno.Errno.AddMany errno.sentinelHeap calls)[0]? = some ⟨10001, "Not support this chain"⟩
          ∧ (errno.Errno.AddMany errno.sentinelHeap calls)[1]? = some ⟨10002, "Invalid Tx"⟩
          ∧ (errno.Errno.AddMany errno.sentinelHeap calls)[2]?
            = some ⟨20001, "Invalid type asset"⟩) := by
  refine ⟨?_, ?_, ?_, ?_, ?_⟩
  · intro e s
    simp [errno.Errno.Add, errno.Errno.Error, String.append_assoc]
  · intro e s
    simp [errno.ResponseErrno.Add, errno.ResponseErrno.Error, String.append_assoc]
  · intro hp p s e he
    have hp_lt : p < hp.length := by
      by_contra hge
      rw [List.getElem?_eq_none (Nat.le_of_not_lt hge)] at he
      simp at he
    refine ⟨hp ++ [errno.Errno.Add e s], by simp [errno.Errno.AddAt, he], ?_, ?_, ?_⟩
    · simp [errno.Errno.Add, String.append_assoc]
    · rw [List.getElem?_append_left hp_lt, he]
    · intro i hi
      exact List.getElem?_append_left hi
  · intro hp p s e he
    have hp_lt : p < hp.length := by
      by_contra hge
      rw [List.getElem?_eq_none (Nat.le_of_not_lt hge)] at he
      simp at he
    refine ⟨hp ++ [errno.ResponseErrno.Add e s], by simp [errno.ResponseErrno.AddAt, he],
      ?_, ?_, ?_⟩
    · simp [errno.ResponseErrno.Add, String.append_assoc]
    · rw [List.getElem?_append_left hp_lt, he]
    · intro i hi
      exact List.getElem?_append_left hi
  · intro calls
    refine ⟨?_, ?_, ?_⟩
    · rw [AddMany_preserves calls errno.sentinelHeap 0 (by decide)]; rfl
    · rw [AddMany_preserves calls errno.sentinelHeap 1 (by decide)]; rfl
    · rw [AddMany_preserves calls errno.sentinelHeap 2 (by decide)]; rfl

/-- C8 on the sentinel `InvalidTypeAssert` (cell 2 of the heap): `Add("x")`
puts `"Invalid type asset: x"` with `State` 20001 in a fresh cell 3 and leaves
cell 2 as it was. -/
theorem Add_copy_semantics_witness :
    ∃ hp1, errno.Errno.AddAt errno.sentinelHeap 2 "x" = some (3, hp1)
      ∧ hp1[3]? = some ⟨20001, "Invalid type asset" ++ ": " ++ "x"⟩
      ∧ hp1[2]? = some errno.InvalidTypeAssert
      ∧ ∀ i, i < 3 → hp1[i]? = errno.sentinelHeap[i]? :=
  Add_copy_semantics.2.2.1 errno.sentinelHeap 2 "x" errno.InvalidTypeAssert rfl
